import Mathlib

/-!
Verification development for the mould per-connection RPC/streaming framework.

Shallow embedding of the core (src/src/session.rs, src/src/server.rs,
src/src/worker.rs + src/src/workers.rs, src/src/connector.rs).
JSON values follow rustc_serialize::json::Json; objects are association
lists standing for BTreeMap<String, Json> (unique keys).  Floating point
is out of scope: the payload of an F64 value is kept as an opaque bit
pattern and numeric-to-float coercions are not interpreted.

The user session value (the T : Session parameter) is opaque to the
dispatcher and only threaded through to workers; it is omitted here, and
a worker's interaction with the dispatcher is represented by the results
its prepare / realize steps return (arbitrary functions of the call input
and of the number of realize calls made so far).
-/

namespace Mould

/-- rustc_serialize::json::Json.  Objects are association lists
(BTreeMap has unique keys); F64 carries an opaque bit pattern. -/
inductive Json where
  | null : Json
  | boolean (b : Bool) : Json
  | i64 (n : Int) : Json
  | u64 (n : Nat) : Json
  | f64 (bits : Nat) : Json
  | str (s : String) : Json
  | arr (elems : List Json) : Json
  | obj (fields : List (String × Json)) : Json
deriving Repr

/-- JSON object (rustc_serialize::json::Object). -/
abbrev JObj := List (String × Json)

/-- Association-list lookup (BTreeMap::get). -/
def assocGet {α β : Type} [DecidableEq α] : List (α × β) → α → Option β
  | [], _ => none
  | (k', v) :: rest, k => if k' = k then some v else assocGet rest k

/-- Association-list key deletion (the map after BTreeMap::remove). -/
def assocErase {α β : Type} [DecidableEq α] : List (α × β) → α → List (α × β)
  | [], _ => []
  | (k', v) :: rest, k =>
      if k' = k then assocErase rest k else (k', v) :: assocErase rest k

/-- BTreeMap::remove: the removed value (if any) and the remaining map. -/
def objRemove (o : JObj) (k : String) : Option Json × JObj :=
  (assocGet o k, assocErase o k)

/-- Json::into_object. -/
def Json.intoObject : Json → Option JObj
  | .obj o => some o
  | _ => none

/-- Json::as_string. -/
def Json.asString : Json → Option String
  | .str s => some s
  | _ => none

/-- Wrapping cast u64 -> i64 (Rust `as i64`). -/
def i64OfU64 (n : Nat) : Int :=
  if n % 2 ^ 64 < 2 ^ 63 then ((n % 2 ^ 64 : Nat) : Int)
  else ((n % 2 ^ 64 : Nat) : Int) - 2 ^ 64

/-- Json::as_i64: defined on I64 and U64 (cast). -/
def Json.asI64 : Json → Option Int
  | .i64 n => some n
  | .u64 n => some (i64OfU64 n)
  | _ => none

/-- Json::as_f64 is defined on I64, U64 and F64.  The coercion into a
float is not interpreted (floating point is out of scope); success keeps
the source value. -/
def Json.asF64 : Json → Option Json
  | .i64 n => some (.i64 n)
  | .u64 n => some (.u64 n)
  | .f64 b => some (.f64 b)
  | _ => none

/-- session.rs: `Request { action, payload }`. -/
structure Request where
  action : String
  payload : JObj

/-- session.rs `impl Extractor<Object> for Request`:
`self.payload.remove(key).and_then(Json::into_object)`.
Returns the extracted value and the mutated request. -/
def Request.extractObject (r : Request) (key : String) : Option JObj × Request :=
  let (v, p) := objRemove r.payload key
  (v.bind Json.intoObject, { r with payload := p })

/-- session.rs `impl Extractor<String> for Request`. -/
def Request.extractString (r : Request) (key : String) : Option String × Request :=
  let (v, p) := objRemove r.payload key
  (v.bind Json.asString, { r with payload := p })

/-- session.rs `impl Extractor<i64> for Request`. -/
def Request.extractI64 (r : Request) (key : String) : Option Int × Request :=
  let (v, p) := objRemove r.payload key
  (v.bind Json.asI64, { r with payload := p })

/-- session.rs `impl Extractor<f64> for Request`. -/
def Request.extractF64 (r : Request) (key : String) : Option Json × Request :=
  let (v, p) := objRemove r.payload key
  (v.bind Json.asF64, { r with payload := p })

/-- session.rs: input events. -/
inductive Input where
  | request (service : String) (req : Request) : Input
  | next (req : Option Request) : Input
  | suspend : Input
  | resume (taskId : Nat) : Input

/-- session.rs: output events (Output).  `send` maps each of these to one
wire frame, so output lists stand for the wire sequence. -/
inductive Output where
  | ready : Output
  | item (data : JObj) : Output
  | done : Output
  | reject (message : String) : Output
  | fail (message : String) : Output
  | suspended (taskId : Nat) : Output

/-- flow.rs / connector.rs: transport errors. -/
inductive FlowError where
  | connectionBroken : FlowError
  | badMessageEncoding : FlowError
deriving DecidableEq

/-- session.rs: session::Error.  WorkerFailed keeps the worker error's
display message (the boxed cause is opaque). -/
inductive Error where
  | illegalJsonFormat : Error
  | illegalEventType : Error
  | illegalEventName (name : String) : Error
  | illegalMessage : Error
  | illegalDataFormat : Error
  | illegalRequestFormat : Error
  | serviceNotFound : Error
  | dataNotProvided : Error
  | unexpectedState : Error
  | canceled : Error
  | connectionClosed : Error
  | connectorFail (cause : FlowError) : Error
  | workerFailed (message : String) : Error
  | workerNotFound : Error
  | cannotSuspend : Error
deriving DecidableEq

/-- session.rs: `Error::description`. -/
def Error.description : Error → String
  | .illegalJsonFormat => "illegal json format"
  | .illegalEventType => "illegal event type"
  | .illegalEventName _ => "illegal event name"
  | .illegalMessage => "illegal message"
  | .illegalDataFormat => "illegal data format"
  | .illegalRequestFormat => "illegal request format"
  | .serviceNotFound => "service not found"
  | .dataNotProvided => "data not provided"
  | .unexpectedState => "unexpected state"
  | .canceled => "cancelled"
  | .connectionClosed => "connection closed"
  | .connectorFail _ => "flow fail"
  | .workerFailed msg => msg
  | .workerNotFound => "task not found"
  | .cannotSuspend => "cannot suspend worker"

/-- session.rs: `impl fmt::Display for Error` (`to_string`): the boxed
cause's message for WorkerFailed, the description otherwise. -/
def Error.display : Error → String
  | .workerFailed msg => msg
  | e => e.description

/-- session.rs, `Context::recv`, `event == "request"` branch: the fields
extracted from the `data` object (`service`, then `action`, then
`payload`, each removed in turn; any mismatch is IllegalRequestFormat). -/
def decodeRequestData (d : JObj) : Except Error Input :=
  match objRemove d "service" with
  | (some (.str service), d) =>
    match objRemove d "action" with
    | (some (.str action), d) =>
      match objRemove d "payload" with
      | (some (.obj payload), _) =>
        .ok (.request service { action := action, payload := payload })
      | _ => .error .illegalRequestFormat
    | _ => .error .illegalRequestFormat
  | _ => .error .illegalRequestFormat

/-- session.rs, `Context::recv`, `event == "next"` branch: the request
parsed from a `data` *object* (`action` then `payload`). -/
def decodeNextData (d : JObj) : Except Error Request :=
  match objRemove d "action" with
  | (some (.str action), d) =>
    match objRemove d "payload" with
    | (some (.obj payload), _) =>
      .ok { action := action, payload := payload }
    | _ => .error .illegalRequestFormat
  | _ => .error .illegalRequestFormat

/-- session.rs: decoding of one parsed inbound JSON frame
(the body of `Context::recv` after `Json::from_str`). -/
def decodeJson (j : Json) : Except Error Input :=
  match j with
  | .obj frame =>
    match objRemove frame "event" with
    | (some (.str event), data) =>
      if event = "request" then
        match objRemove data "data" with
        | (some (.obj d), _) => decodeRequestData d
        | (some _, _) => .error .illegalDataFormat
        | (none, _) => .error .dataNotProvided
      else if event = "next" then
        match objRemove data "data" with
        | (some (.obj d), _) =>
          match decodeNextData d with
          | .ok req => .ok (.next (some req))
          | .error e => .error e
        | (some .null, _) => .ok (.next none)
        | (some _, _) => .error .illegalDataFormat
        | (none, _) => .ok (.next none)
      else if event = "resume" then
        match objRemove data "data" with
        | (some (.u64 taskId), _) => .ok (.resume taskId)
        | _ => .error .illegalDataFormat
      else if event = "suspend" then .ok .suspend
      else if event = "cancel" then .error .canceled
      else .error (.illegalEventName event)
    | _ => .error .illegalEventType
  | _ => .error .illegalJsonFormat

/-- One inbound transport event as seen by `Context::recv` through
`Flow::pull`: an orderly close (`Ok(None)`), a transport error, a text
frame that is not valid JSON, or a parsed JSON value. -/
inductive Frame where
  | closed : Frame
  | ioError (e : FlowError) : Frame
  | badJson : Frame
  | json (j : Json) : Frame

/-- session.rs: `Context::recv`. -/
def recv : Frame → Except Error Input
  | .closed => .error .connectionClosed
  | .ioError e => .error (.connectorFail e)
  | .badJson => .error .illegalJsonFormat
  | .json j => decodeJson j

/-- session.rs: Alternative. -/
inductive Alternative (α β : Type) where
  | usual (a : α) : Alternative α β
  | unusual (b : β) : Alternative α β

/-- session.rs: `Context::recv_request_or_resume`. -/
def recvRequestOrResume (f : Frame) :
    Except Error (Alternative (String × Request) Nat) :=
  match recv f with
  | .ok (.request service req) => .ok (.usual (service, req))
  | .ok (.resume taskId) => .ok (.unusual taskId)
  | .ok _ => .error .unexpectedState
  | .error e => .error e

/-- session.rs: `Context::recv_next_or_suspend`. -/
def recvNextOrSuspend (f : Frame) :
    Except Error (Alternative (Option Request) Unit) :=
  match recv f with
  | .ok (.next req) => .ok (.usual req)
  | .ok .suspend => .ok (.unusual ())
  | .ok _ => .error .unexpectedState
  | .error e => .error e

/-- workers.rs ShortcutResult (the Shortcut shape `process_session`
consumes: Tuned | Reject | Done). -/
inductive Shortcut where
  | tuned : Shortcut
  | reject (reason : String) : Shortcut
  | done : Shortcut

/-- workers.rs WorkerResult / the Realize shape `process_session`
consumes.  The boxed item iterators are finite lists. -/
inductive Realize where
  | manyItems (items : List JObj) : Realize
  | manyItemsAndDone (items : List JObj) : Realize
  | oneItem (item : JObj) : Realize
  | oneItemAndDone (item : JObj) : Realize
  | reject (reason : String) : Realize
  | done : Realize

/-- A worker, abstracted over the opaque user session: the result of its
one `prepare` call and of its successive `realize` calls (indexed by the
number of realize calls already made, which stands for the worker's
internal mutable state).  An `Except.error msg` is a worker error, which
`try!` turns into `Error::WorkerFailed` whose display is `msg`. -/
structure Worker where
  prepare : Request → Except String Shortcut
  realize : Nat → Option Request → Except String Realize

/-- A parked worker: the worker and its realize-call position. -/
abbrev ActiveW := Worker × Nat

/-- A service as `process_session` uses it: `route(&request)` never
fails and yields a worker (router.rs: "Never return error, but
rejecting Worker created"). -/
abbrev Service := Request → Worker

/-- server.rs Suite: the registry `service name -> Service`
(the builder only produces the opaque user session). -/
abbrev Suite := List (String × Service)

/-- slab crate (fixed capacity, as used by
`Slab::with_capacity(10)`): occupied slots plus a LIFO free list of slot
ids; `insert` fails when the free list is empty. -/
structure Slab where
  entries : List (Nat × ActiveW)
  free : List Nat

/-- server.rs line 40: `Slab::with_capacity(10)`. -/
def Slab.empty10 : Slab := { entries := [], free := List.range 10 }

/-- Slab::insert: allocate the next free id or fail when full. -/
def Slab.insert (s : Slab) (w : ActiveW) : Except Unit (Nat × Slab) :=
  match s.free with
  | [] => .error ()
  | t :: fr => .ok (t, { entries := (t, w) :: s.entries, free := fr })

/-- Slab::remove: take the entry out (its id returns to the free list). -/
def Slab.remove (s : Slab) (t : Nat) : Option ActiveW × Slab :=
  match assocGet s.entries t with
  | none => (none, s)
  | some w => (some w, { entries := assocErase s.entries t, free := t :: s.free })

/-- server.rs lines 129-142: the session loop's error handler.  Returns
the outputs it sends and whether the session loop continues
(`Canceled => continue`, `ConnectorFail | ConnectionClosed => break`,
otherwise send `Output::Fail(reason.to_string())` and continue). -/
def errorAction (e : Error) : List Output × Bool :=
  match e with
  | .canceled => ([], true)
  | .connectorFail _ => ([], false)
  | .connectionClosed => ([], false)
  | _ => ([Output.fail e.display], true)

/-- Result of processing one request (one iteration of the request loop
in `process_session`, error handling included): the outputs emitted for
that request, the suspended-workers table afterwards, the remaining
inbound frames, and whether the session loop continues. -/
structure StepRes where
  outs : List Output
  slab : Slab
  rest : List Frame
  cont : Bool

/-- server.rs lines 78-126: the streaming loop.  Each iteration sends
`Ready`, reads next-or-suspend and drives the active worker `w` (which
has made `k` realize calls so far).  An exhausted frame list models the
end of the observed trace (the dispatcher blocked in `pull`). -/
def streamLoop (w : Worker) (k : Nat) (s : Slab) : List Frame → StepRes
  | [] => ⟨[.ready], s, [], false⟩
  | f :: rest =>
    match recvNextOrSuspend f with
    | .error e =>
      let (o, c) := errorAction e
      ⟨.ready :: o, s, rest, c⟩
    | .ok (.usual p) =>
      match w.realize k p with
      | .error msg =>
        let (o, c) := errorAction (.workerFailed msg)
        ⟨.ready :: o, s, rest, c⟩
      | .ok (.oneItem i) =>
        let r := streamLoop w (k + 1) s rest
        ⟨.ready :: .item i :: r.outs, r.slab, r.rest, r.cont⟩
      | .ok (.oneItemAndDone i) => ⟨[.ready, .item i, .done], s, rest, true⟩
      | .ok (.manyItems items) =>
        let r := streamLoop w (k + 1) s rest
        ⟨.ready :: (items.map .item ++ r.outs), r.slab, r.rest, r.cont⟩
      | .ok (.manyItemsAndDone items) =>
        ⟨.ready :: (items.map .item ++ [.done]), s, rest, true⟩
      | .ok (.reject reason) => ⟨[.ready, .reject reason], s, rest, true⟩
      | .ok .done => ⟨[.ready, .done], s, rest, true⟩
    | .ok (.unusual _) =>
      match s.insert (w, k) with
      | .ok (taskId, s') => ⟨[.ready, .suspended taskId], s', rest, true⟩
      | .error _ =>
        let (o, c) := errorAction .cannotSuspend
        ⟨.ready :: o, s, rest, c⟩

/-- server.rs lines 44-142: one request (one iteration of the request
loop, with the session loop's error handler applied to any error it
raises).  An exhausted frame list ends the observed trace. -/
def stepRequest (su : Suite) (s : Slab) : List Frame → StepRes
  | [] => ⟨[], s, [], false⟩
  | f :: rest =>
    match recvRequestOrResume f with
    | .error e =>
      let (o, c) := errorAction e
      ⟨o, s, rest, c⟩
    | .ok (.usual (serviceName, req)) =>
      match assocGet su serviceName with
      | none =>
        let (o, c) := errorAction .serviceNotFound
        ⟨o, s, rest, c⟩
      | some svc =>
        let w := svc req
        match w.prepare req with
        | .error msg =>
          let (o, c) := errorAction (.workerFailed msg)
          ⟨o, s, rest, c⟩
        | .ok .done => ⟨[.done], s, rest, true⟩
        | .ok (.reject reason) => ⟨[.reject reason], s, rest, true⟩
        | .ok .tuned => streamLoop w 0 s rest
    | .ok (.unusual taskId) =>
      match s.remove taskId with
      | (none, _) =>
        let (o, c) := errorAction .workerNotFound
        ⟨o, s, rest, c⟩
      | (some (w, k), s') => streamLoop w k s' rest

/-- The session loop, fuelled by the number of remaining frames (each
request consumes at least one frame). -/
def runSession (su : Suite) : Nat → Slab → List Frame → List Output
  | 0, _, _ => []
  | _ + 1, _, [] => []
  | fuel + 1, s, f :: rest =>
    let r := stepRequest su s (f :: rest)
    r.outs ++ (if r.cont then runSession su fuel r.slab r.rest else [])

/-- server.rs `process_session`: the whole per-connection wire output for
a finite observed inbound trace. -/
def processSession (su : Suite) (frames : List Frame) : List Output :=
  runSession su frames.length Slab.empty10 frames

/-!
Small-step presentation of the same dispatcher, exposing the state at
every instant (used for the at-most-one-active-task invariant).  The
control point records where `process_session` is blocked next:
`awaitReq` before `recv_request_or_resume`, `awaitNext` before the
`Ready`/`recv_next_or_suspend` exchange, `halted` after the session loop
broke.  `active` lists the workers currently held by the dispatcher
outside the suspended-workers table; the code holds them in the single
local variable `worker`, so the list lets the invariant be stated and
checked rather than assumed. -/

/-- Control point of `process_session`. -/
inductive CP where
  | awaitReq : CP
  | awaitNext : CP
  | halted : CP
deriving DecidableEq

/-- Instantaneous dispatcher state. -/
structure Conf where
  cp : CP
  active : List ActiveW
  slab : Slab
  frames : List Frame
  outs : List Output

/-- Initial state of a connection (server.rs lines 37-41). -/
def Conf.start (frames : List Frame) : Conf :=
  { cp := .awaitReq, active := [], slab := Slab.empty10, frames := frames,
    outs := [] }

/-- One dispatcher transition (one inbound event processed, or a halt
when the trace is exhausted).  Mirrors `stepRequest`/`streamLoop` one
recv at a time. -/
def dstep (su : Suite) (c : Conf) : Conf :=
  match c.cp with
  | .halted => c
  | .awaitReq =>
    match c.frames with
    | [] => { c with cp := .halted }
    | f :: rest =>
      match recvRequestOrResume f with
      | .error e =>
        let (o, cont) := errorAction e
        { c with cp := if cont then .awaitReq else .halted,
                 frames := rest, outs := c.outs ++ o }
      | .ok (.usual (serviceName, req)) =>
        match assocGet su serviceName with
        | none =>
          let (o, cont) := errorAction .serviceNotFound
          { c with cp := if cont then .awaitReq else .halted,
                   frames := rest, outs := c.outs ++ o }
        | some svc =>
          let w := svc req
          match w.prepare req with
          | .error msg =>
            let (o, cont) := errorAction (.workerFailed msg)
            { c with cp := if cont then .awaitReq else .halted,
                     frames := rest, outs := c.outs ++ o }
          | .ok .done =>
            { c with frames := rest, outs := c.outs ++ [.done] }
          | .ok (.reject reason) =>
            { c with frames := rest, outs := c.outs ++ [.reject reason] }
          | .ok .tuned =>
            { c with cp := .awaitNext, active := (w, 0) :: c.active,
                     frames := rest }
      | .ok (.unusual taskId) =>
        match c.slab.remove taskId with
        | (none, _) =>
          let (o, cont) := errorAction .workerNotFound
          { c with cp := if cont then .awaitReq else .halted,
                   frames := rest, outs := c.outs ++ o }
        | (some wk, s') =>
          { c with cp := .awaitNext, active := wk :: c.active, slab := s',
                   frames := rest }
  | .awaitNext =>
    match c.active with
    | [] => { c with cp := .halted }
    | (w, k) :: arest =>
      match c.frames with
      | [] => { c with cp := .halted, outs := c.outs ++ [.ready] }
      | f :: rest =>
        match recvNextOrSuspend f with
        | .error e =>
          let (o, cont) := errorAction e
          { c with cp := if cont then .awaitReq else .halted,
                   active := arest, frames := rest,
                   outs := c.outs ++ .ready :: o }
        | .ok (.usual p) =>
          match w.realize k p with
          | .error msg =>
            let (o, cont) := errorAction (.workerFailed msg)
            { c with cp := if cont then .awaitReq else .halted,
                     active := arest, frames := rest,
                     outs := c.outs ++ .ready :: o }
          | .ok (.oneItem i) =>
            { c with active := (w, k + 1) :: arest, frames := rest,
                     outs := c.outs ++ [.ready, .item i] }
          | .ok (.oneItemAndDone i) =>
            { c with cp := .awaitReq, active := arest, frames := rest,
                     outs := c.outs ++ [.ready, .item i, .done] }
          | .ok (.manyItems items) =>
            { c with active := (w, k + 1) :: arest, frames := rest,
                     outs := c.outs ++ .ready :: items.map .item }
          | .ok (.manyItemsAndDone items) =>
            { c with cp := .awaitReq, active := arest, frames := rest,
                     outs := c.outs ++ .ready :: (items.map .item ++ [.done]) }
          | .ok (.reject reason) =>
            { c with cp := .awaitReq, active := arest, frames := rest,
                     outs := c.outs ++ [.ready, .reject reason] }
          | .ok .done =>
            { c with cp := .awaitReq, active := arest, frames := rest,
                     outs := c.outs ++ [.ready, .done] }
        | .ok (.unusual _) =>
          match c.slab.insert (w, k) with
          | .ok (taskId, s') =>
            { c with cp := .awaitReq, active := arest, slab := s',
                     frames := rest, outs := c.outs ++ [.ready, .suspended taskId] }
          | .error _ =>
            let (o, cont) := errorAction .cannotSuspend
            { c with cp := if cont then .awaitReq else .halted,
                     active := arest, frames := rest,
                     outs := c.outs ++ .ready :: o }

/-- Iterated dispatcher transitions. -/
def drun (su : Suite) : Nat → Conf → Conf
  | 0, c => c
  | n + 1, c => drun su n (dstep su c)

/-- Number of workers the dispatcher holds outside the
suspended-workers table. -/
def Conf.activeCount (c : Conf) : Nat := c.active.length

/-!
Output-shape languages.  `claimedShape` is the spec's language: the four
regular expressions of section 5 (`(item)* done`,
`ready (next -> (item)*)* done`, `ready (next -> (item)*)* suspended`,
`reject | fail`), read charitably on outputs: `next` is an input, and
the repeated `ready` the dispatcher emits before each `next` is allowed
inside the starred group.  `ReqShape` is the language the code actually
produces per request. -/

/-- `(item)* done`. -/
def itemsThenDone : List Output → Bool
  | [.done] => true
  | .item _ :: rest => itemsThenDone rest
  | _ => false

/-- After the leading `ready`: any mix of `ready` and `item`, ended by
`done` or `suspended`. -/
def readyMixTail : List Output → Bool
  | [.done] => true
  | [.suspended _] => true
  | .ready :: rest => readyMixTail rest
  | .item _ :: rest => readyMixTail rest
  | _ => false

/-- The spec's four regular expressions for one request's outputs. -/
def claimedShape (outs : List Output) : Bool :=
  itemsThenDone outs ||
  (match outs with
   | .ready :: rest => readyMixTail rest
   | _ => false) ||
  (match outs with
   | [.reject _] => true
   | [.fail _] => true
   | _ => false)

/-- The per-request output language of `process_session`:
`(ready item*)* t` where the terminator `t` is `done`, `suspended`,
`reject`, `fail`, or nothing (canceled / closed / trace end), and the
whole sequence may also be a bare terminator. -/
inductive ReqShape : List Output → Prop
  | nil : ReqShape []
  | done : ReqShape [.done]
  | suspended (taskId : Nat) : ReqShape [.suspended taskId]
  | reject (m : String) : ReqShape [.reject m]
  | fail (m : String) : ReqShape [.fail m]
  | stream (items : List JObj) (rest : List Output) :
      ReqShape rest → ReqShape (.ready :: (items.map .item ++ rest))

/-- Whether some output is a `fail` with the given message. -/
def hasFailMsg (m : String) : List Output → Bool
  | [] => false
  | .fail m' :: rest => (m' = m) || hasFailMsg m rest
  | _ :: rest => hasFailMsg m rest

/-!
Concrete fixtures: wire frames and tiny workers used by witnesses and
counterexamples. -/

/-- `{"event":"request","data":{"service":s,"action":a,"payload":{...}}}`. -/
def requestFrame (service action : String) (payload : JObj) : Frame :=
  .json (.obj [("event", .str "request"),
               ("data", .obj [("service", .str service),
                              ("action", .str action),
                              ("payload", .obj payload)])])

/-- `{"event":"next"}`. -/
def nextFrame : Frame := .json (.obj [("event", .str "next")])

/-- `{"event":"suspend"}`. -/
def suspendFrame : Frame := .json (.obj [("event", .str "suspend")])

/-- `{"event":"resume","data":t}`. -/
def resumeFrame (t : Nat) : Frame :=
  .json (.obj [("event", .str "resume"), ("data", .u64 t)])

/-- `{"event":"cancel"}`. -/
def cancelFrame : Frame := .json (.obj [("event", .str "cancel")])

/-- A streaming worker whose prepare tunes and whose realize always
fails with message "boom". -/
def boomWorker : Worker :=
  { prepare := fun _ => .ok .tuned,
    realize := fun _ _ => .error "boom" }

/-- A streaming worker that answers every `next` with `Done`. -/
def quietWorker : Worker :=
  { prepare := fun _ => .ok .tuned,
    realize := fun _ _ => .ok .done }

/-! Basic association-list lemmas. -/

theorem assocGet_assocErase_self {α β : Type} [DecidableEq α]
    (o : List (α × β)) (k : α) : assocGet (assocErase o k) k = none := by
  induction o with
  | nil => simp [assocGet, assocErase]
  | cons p rest ih =>
    obtain ⟨k', v⟩ := p
    by_cases h : k' = k
    · simpa [assocErase, h] using ih
    · simp [assocErase, assocGet, h, ih]

theorem assocGet_assocErase_ne {α β : Type} [DecidableEq α]
    (o : List (α × β)) (k k' : α) (h : k' ≠ k) :
    assocGet (assocErase o k) k' = assocGet o k' := by
  induction o with
  | nil => simp [assocGet, assocErase]
  | cons p rest ih =>
    obtain ⟨k₀, v⟩ := p
    by_cases hk : k₀ = k
    · subst hk
      simp [assocErase, assocGet, Ne.symm h, ih]
    · by_cases hk' : k₀ = k'
      · subst hk'
        simp [assocErase, assocGet, hk]
      · simp [assocErase, assocGet, hk, hk', ih]

/-- C10.  Every `Extractor::extract` implementation on `Request`
(Object, String, i64, f64) removes the looked-up key from the payload —
also when the conversion fails — leaves every other key bound as before,
and never touches `action`; hence an immediately repeated extract of the
same key returns `None`. -/
theorem extract_removes_key (r : Request) (key : String) :
    (r.extractObject key).2 = ⟨r.action, assocErase r.payload key⟩ ∧
    (r.extractString key).2 = ⟨r.action, assocErase r.payload key⟩ ∧
    (r.extractI64 key).2 = ⟨r.action, assocErase r.payload key⟩ ∧
    (r.extractF64 key).2 = ⟨r.action, assocErase r.payload key⟩ ∧
    assocGet (assocErase r.payload key) key = none ∧
    (∀ k', k' ≠ key → assocGet (assocErase r.payload key) k' = assocGet r.payload k') ∧
    ((r.extractObject key).2.extractObject key).1 = none ∧
    ((r.extractString key).2.extractString key).1 = none ∧
    ((r.extractI64 key).2.extractI64 key).1 = none ∧
    ((r.extractF64 key).2.extractF64 key).1 = none := by
  refine ⟨rfl, rfl, rfl, rfl, assocGet_assocErase_self _ _,
    fun k' h => assocGet_assocErase_ne _ _ _ h, ?_, ?_, ?_, ?_⟩ <;>
    simp [Request.extractObject, Request.extractString, Request.extractI64,
      Request.extractF64, objRemove, assocGet_assocErase_self]

/-- Witness for C10 at a concrete request and key. -/
theorem extract_removes_key_witness :
    ((Request.mk "a" [("x", .u64 1), ("y", .str "v")]).extractI64 "x").2 =
      ⟨"a", [("y", .str "v")]⟩ ∧
    assocGet (assocErase [("x", Json.u64 1), ("y", Json.str "v")] "x") "y" =
      some (.str "v") := by
  have h := extract_removes_key ⟨"a", [("x", .u64 1), ("y", .str "v")]⟩ "x"
  refine ⟨h.2.2.1, ?_⟩
  rw [h.2.2.2.2.2.1 "y" (by decide)]
  rfl

/-! Codec theorems (session.rs `Context::recv`). -/

/-- The success condition for `request` decoding as the claim states it
(C7): string `service` and `action` fields and an arbitrary `payload`
value.  Stated from the claim's words, to be compared with `decodeJson`. -/
def claimedRequestDataOk (d : JObj) : Bool :=
  (match assocGet d "service" with | some (.str _) => true | _ => false) &&
  (match assocGet d "action" with | some (.str _) => true | _ => false) &&
  (assocGet d "payload").isSome

/-- C7 counterexample: a `request` whose `payload` is the number 1 —
accepted by the claim's condition — is rejected by the decoder with
`IllegalRequestFormat` (the code requires `payload` to be an object). -/
theorem decode_request_nonobject_payload_cex :
    claimedRequestDataOk
      [("service", .str "s"), ("action", .str "a"), ("payload", .u64 1)] = true ∧
    decodeJson (.obj [("event", .str "request"),
      ("data", .obj [("service", .str "s"), ("action", .str "a"),
                     ("payload", .u64 1)])]) =
      .error .illegalRequestFormat :=
  ⟨rfl, rfl⟩

/-- C7 (amended).  Decoding `{"event":"request","data":D}` succeeds with
`Input::Request(s, Request{action: a, payload: p})` exactly when `D` is an
object whose `service` field is the string `s`, whose `action` field is
the string `a`, and whose `payload` field is the *object* `p`; a missing
`data` is `DataNotProvided`, a non-object `data` is `IllegalDataFormat`,
and every other failure of the field conditions is
`IllegalRequestFormat`. -/
theorem decode_request_ok_iff (d : JObj) (s a : String) (p : JObj) :
    (decodeJson (.obj [("event", .str "request"), ("data", .obj d)]) =
        .ok (.request s ⟨a, p⟩) ↔
      assocGet d "service" = some (.str s) ∧
      assocGet d "action" = some (.str a) ∧
      assocGet d "payload" = some (.obj p)) ∧
    decodeJson (.obj [("event", .str "request")]) = .error .dataNotProvided ∧
    (∀ j : Json, j.intoObject = none →
      decodeJson (.obj [("event", .str "request"), ("data", j)]) =
        .error .illegalDataFormat) ∧
    ((∃ s' a' p', decodeRequestData d = .ok (.request s' ⟨a', p'⟩)) ∨
      decodeRequestData d = .error .illegalRequestFormat) := by
  have hred : decodeJson (.obj [("event", .str "request"), ("data", .obj d)]) =
      decodeRequestData d := by
    simp [decodeJson, objRemove, assocGet, assocErase]
  have hok : ∀ s' a' p', (decodeRequestData d = .ok (.request s' ⟨a', p'⟩) ↔
      assocGet d "service" = some (.str s') ∧
      assocGet d "action" = some (.str a') ∧
      assocGet d "payload" = some (.obj p')) := by
    intro s' a' p'
    rcases hs : assocGet d "service" with _ | vs
    · simp [decodeRequestData, objRemove, hs]
    · cases vs
      case str sv =>
        rcases ha : assocGet d "action" with _ | va
        · simp [decodeRequestData, objRemove, hs, ha, assocGet_assocErase_ne]
        · cases va
          case str av =>
            rcases hp : assocGet d "payload" with _ | vp
            · simp [decodeRequestData, objRemove, hs, ha, hp,
                assocGet_assocErase_ne]
            · cases vp <;>
                simp [decodeRequestData, objRemove, hs, ha, hp,
                  assocGet_assocErase_ne]
          all_goals
            simp [decodeRequestData, objRemove, hs, ha, assocGet_assocErase_ne]
      all_goals simp [decodeRequestData, objRemove, hs]
  refine ⟨hred ▸ hok s a p, rfl, ?_, ?_⟩
  · intro j hj
    cases j <;> simp_all [decodeJson, objRemove, assocGet, assocErase,
      Json.intoObject]
  · rcases hs : assocGet d "service" with _ | vs
    · exact .inr (by simp [decodeRequestData, objRemove, hs])
    · cases vs
      case str sv =>
        rcases ha : assocGet d "action" with _ | va
        · exact .inr (by
            simp [decodeRequestData, objRemove, hs, ha, assocGet_assocErase_ne])
        · cases va
          case str av =>
            rcases hp : assocGet d "payload" with _ | vp
            · exact .inr (by
                simp [decodeRequestData, objRemove, hs, ha, hp,
                  assocGet_assocErase_ne])
            · cases vp
              case obj pv =>
                exact .inl ⟨sv, av, pv, (hok sv av pv).mpr ⟨hs, ha, hp⟩⟩
              all_goals exact .inr (by
                simp [decodeRequestData, objRemove, hs, ha, hp,
                  assocGet_assocErase_ne])
          all_goals exact .inr (by
            simp [decodeRequestData, objRemove, hs, ha, assocGet_assocErase_ne])
      all_goals exact .inr (by simp [decodeRequestData, objRemove, hs])

/-- Witness for C7 at a concrete `data` object. -/
theorem decode_request_ok_iff_witness :
    decodeJson (.obj [("event", .str "request"),
      ("data", .obj [("service", .str "s"), ("action", .str "a"),
                     ("payload", .obj [("k", .null)])])]) =
      .ok (.request "s" ⟨"a", [("k", .null)]⟩) :=
  (decode_request_ok_iff [("service", .str "s"), ("action", .str "a"),
      ("payload", .obj [("k", .null)])] "s" "a" [("k", .null)]).1.mpr
    ⟨rfl, rfl, rfl⟩

/-- Does a decode result carry `Input::Next`? (claim side of C8). -/
def isOkNext : Except Error Input → Bool
  | .ok (.next _) => true
  | _ => false

/-- C8 counterexample: `{"event":"next","data":5}` — by the claim every
JSON value supplied as `data` becomes the step payload — is rejected
with `IllegalDataFormat`. -/
theorem decode_next_nonobject_data_cex :
    decodeJson (.obj [("event", .str "next"), ("data", .u64 5)]) =
      .error .illegalDataFormat ∧
    isOkNext (decodeJson (.obj [("event", .str "next"), ("data", .u64 5)])) =
      false :=
  ⟨rfl, rfl⟩

/-- C8 (amended).  Decoding `{"event":"next"}`: an absent or null `data`
yields `Input::Next(None)`; a `data` object must carry a string `action`
and an object `payload` and yields `Input::Next(Some(request))`; any
other `data` value is `IllegalDataFormat`.  The decoded payload is what
the dispatcher hands to the active worker's `realize` step. -/
theorem decode_next_ok_iff (dd : JObj) (a : String) (p : JObj) :
    decodeJson (.obj [("event", .str "next")]) = .ok (.next none) ∧
    decodeJson (.obj [("event", .str "next"), ("data", .null)]) =
      .ok (.next none) ∧
    (decodeJson (.obj [("event", .str "next"), ("data", .obj dd)]) =
        .ok (.next (some ⟨a, p⟩)) ↔
      assocGet dd "action" = some (.str a) ∧
      assocGet dd "payload" = some (.obj p)) ∧
    (∀ j : Json, j.intoObject = none → j ≠ .null →
      decodeJson (.obj [("event", .str "next"), ("data", j)]) =
        .error .illegalDataFormat) ∧
    (∀ (w : Worker) (k : Nat) (s : Slab) (rest : List Frame)
        (q : Option Request) (i : JObj) (f : Frame),
      recvNextOrSuspend f = .ok (.usual q) →
      w.realize k q = .ok (.oneItemAndDone i) →
      streamLoop w k s (f :: rest) = ⟨[.ready, .item i, .done], s, rest, true⟩) := by
  have hred : decodeJson (.obj [("event", .str "next"), ("data", .obj dd)]) =
      (match decodeNextData dd with
       | .ok req => .ok (.next (some req))
       | .error e => .error e) := by
    simp [decodeJson, objRemove, assocGet, assocErase]
  refine ⟨rfl, rfl, ?_, ?_, ?_⟩
  · rw [hred]
    rcases ha : assocGet dd "action" with _ | va
    · simp [decodeNextData, objRemove, ha]
    · cases va
      case str av =>
        rcases hp : assocGet dd "payload" with _ | vp
        · simp [decodeNextData, objRemove, ha, hp, assocGet_assocErase_ne]
        · cases vp <;>
            simp [decodeNextData, objRemove, ha, hp, assocGet_assocErase_ne]
      all_goals simp [decodeNextData, objRemove, ha]
  · intro j hj hnull
    cases j <;> simp_all [decodeJson, objRemove, assocGet, assocErase,
      Json.intoObject]
  · intro w k s rest q i f hf hr
    simp [streamLoop, hf, hr]

/-- Witness for C8 at concrete inputs: the decoded `next` payload is
handed to `realize`. -/
theorem decode_next_ok_iff_witness :
    decodeJson (.obj [("event", .str "next"),
      ("data", .obj [("action", .str "a"), ("payload", .obj [])])]) =
      .ok (.next (some ⟨"a", []⟩)) ∧
    streamLoop { prepare := fun _ => .ok .tuned,
                 realize := fun _ q =>
                   if (q.map Request.action) = some "a" then
                     .ok (.oneItemAndDone [("ok", .null)])
                   else .error "wrong payload" }
      0 Slab.empty10
      [.json (.obj [("event", .str "next"),
        ("data", .obj [("action", .str "a"), ("payload", .obj [])])])] =
      ⟨[.ready, .item [("ok", .null)], .done], Slab.empty10, [], true⟩ := by
  have h := decode_next_ok_iff [("action", .str "a"), ("payload", .obj [])] "a" []
  refine ⟨h.2.2.1.mpr ⟨rfl, rfl⟩, ?_⟩
  exact h.2.2.2.2 _ 0 Slab.empty10 [] (some ⟨"a", []⟩) [("ok", .null)] _
    (by simp [recvNextOrSuspend, recv, h.2.2.1.mpr ⟨rfl, rfl⟩]) rfl

/-! Dispatcher error handling (server.rs lines 129-142). -/

/-- C3.  A decoded `cancel` (the `Canceled` error) while awaiting a
request, or while a streaming worker is active, makes the dispatcher
drop the current worker, emit nothing further (during streaming only the
`ready` already on the wire precedes the cancel), leave the
suspended-workers table untouched and return to the idle
request-or-resume point; and among the errors after which the session
loop keeps serving, `Canceled` is the only one that emits no output. -/
theorem cancel_is_silent :
    (∀ (su : Suite) (s : Slab) (rest : List Frame),
      stepRequest su s (cancelFrame :: rest) = ⟨[], s, rest, true⟩) ∧
    (∀ (w : Worker) (k : Nat) (s : Slab) (rest : List Frame),
      streamLoop w k s (cancelFrame :: rest) = ⟨[.ready], s, rest, true⟩) ∧
    (∀ e : Error, (errorAction e).2 = true →
      ((errorAction e).1 = [] ↔ e = .canceled)) := by
  refine ⟨fun su s rest => rfl, fun w k s rest => rfl, ?_⟩
  intro e he
  cases e <;> simp_all [errorAction]

/-- Witness for C3: a concrete cancel frame at idle. -/
theorem cancel_is_silent_witness :
    stepRequest [] Slab.empty10 [cancelFrame] = ⟨[], Slab.empty10, [], true⟩ ∧
    ((errorAction .canceled).1 = [] ↔ Error.canceled = .canceled) :=
  ⟨cancel_is_silent.1 [] Slab.empty10 [], cancel_is_silent.2.2 .canceled rfl⟩

/-- C4.  Errors are local to one request: `ConnectionClosed` and
transport (`ConnectorFail`) errors break the session loop emitting
nothing, while every error other than those and `Canceled` makes the
handler emit exactly one `fail` with the error's display message and
continue with the next request. -/
theorem errors_are_request_local :
    (∀ (su : Suite) (s : Slab) (rest : List Frame),
      stepRequest su s (Frame.closed :: rest) = ⟨[], s, rest, false⟩) ∧
    (∀ (su : Suite) (s : Slab) (rest : List Frame) (fe : FlowError),
      stepRequest su s (Frame.ioError fe :: rest) = ⟨[], s, rest, false⟩) ∧
    errorAction .connectionClosed = ([], false) ∧
    (∀ fe : FlowError, errorAction (.connectorFail fe) = ([], false)) ∧
    (∀ e : Error, e ≠ .canceled → e ≠ .connectionClosed →
      (∀ fe : FlowError, e ≠ .connectorFail fe) →
      errorAction e = ([Output.fail e.display], true)) ∧
    (∀ (su : Suite) (s : Slab) (rest : List Frame),
      stepRequest su s (Frame.badJson :: rest) =
        ⟨[.fail "illegal json format"], s, rest, true⟩) := by
  refine ⟨fun su s rest => rfl, fun su s rest fe => rfl, rfl, fun fe => rfl,
    ?_, fun su s rest => rfl⟩
  intro e h1 h2 h3
  cases e <;> simp_all [errorAction]

/-- Witness for C4: the unknown-service error yields one fail and the
session continues. -/
theorem errors_are_request_local_witness :
    errorAction .serviceNotFound = ([Output.fail "service not found"], true) ∧
    stepRequest [] Slab.empty10 [Frame.closed] = ⟨[], Slab.empty10, [], false⟩ :=
  ⟨errors_are_request_local.2.2.2.2.1 .serviceNotFound
      (by decide) (by decide) (fun fe => by cases fe <;> decide),
    errors_are_request_local.1 [] Slab.empty10 []⟩

/-! Suspend and resume (server.rs lines 67-76 and 113-124). -/

/-- A suspended-workers table with all 10 reference-capacity slots
occupied (ten parked workers, empty free list). -/
def fullSlab : Slab :=
  { entries := (List.range 10).reverse.map (fun i => (i, (quietWorker, 0))),
    free := [] }

/-- C5 counterexample: with the table full, the suspend failure is
reported as `fail("cannot suspend worker")` — the message the claim
states, `"cannot suspend"`, never appears. -/
theorem suspend_full_message_cex :
    fullSlab.free = [] ∧
    (streamLoop quietWorker 0 fullSlab [suspendFrame]).outs =
      [.ready, .fail "cannot suspend worker"] ∧
    hasFailMsg "cannot suspend"
      (streamLoop quietWorker 0 fullSlab [suspendFrame]).outs = false ∧
    hasFailMsg "cannot suspend worker"
      (streamLoop quietWorker 0 fullSlab [suspendFrame]).outs = true :=
  ⟨rfl, rfl, rfl, rfl⟩

/-- C5 (amended).  On `suspend` from a streaming worker: if the table
has a free slot, the worker is parked under the allocated TaskId, the
dispatcher emits `suspended(taskId)` and returns to Idle; if the table
(reference capacity 10) is full, it emits `fail("cannot suspend worker")`,
drops the worker and returns to Idle. -/
theorem suspend_semantics (w : Worker) (k : Nat) (s : Slab)
    (rest : List Frame) :
    (∀ (t : Nat) (fr : List Nat), s.free = t :: fr →
      streamLoop w k s (suspendFrame :: rest) =
        ⟨[.ready, .suspended t],
         { entries := (t, (w, k)) :: s.entries, free := fr }, rest, true⟩) ∧
    (s.free = [] →
      streamLoop w k s (suspendFrame :: rest) =
        ⟨[.ready, .fail "cannot suspend worker"], s, rest, true⟩) ∧
    Slab.empty10.free.length = 10 := by
  have hrecv : recvNextOrSuspend suspendFrame = .ok (.unusual ()) := rfl
  refine ⟨?_, ?_, rfl⟩
  · intro t fr h
    simp [streamLoop, hrecv, Slab.insert, h]
  · intro h
    simp [streamLoop, hrecv, Slab.insert, h, errorAction, Error.display,
      Error.description]

/-- Witness for C5: first suspend on the empty table parks under
TaskId 0. -/
theorem suspend_semantics_witness :
    streamLoop quietWorker 0 Slab.empty10 [suspendFrame] =
      ⟨[.ready, .suspended 0],
       { entries := [(0, (quietWorker, 0))], free := [1, 2, 3, 4, 5, 6, 7, 8, 9] },
       [], true⟩ :=
  (suspend_semantics quietWorker 0 Slab.empty10 []).1 0
    [1, 2, 3, 4, 5, 6, 7, 8, 9] rfl

/-- C6 counterexample: resuming an unknown TaskId is reported as
`fail("task not found")` — the message the claim states,
`"cannot resume"`, never appears. -/
theorem resume_unknown_message_cex :
    (stepRequest [] Slab.empty10 [resumeFrame 0]).outs =
      [.fail "task not found"] ∧
    hasFailMsg "cannot resume"
      (stepRequest [] Slab.empty10 [resumeFrame 0]).outs = false :=
  ⟨rfl, rfl⟩

/-- C6 (amended).  On `resume(t)` at Idle the dispatcher removes the
entry for `t` from the suspended-workers table: if absent it emits
`fail("task not found")` and stays Idle with the table unchanged; if
present it streams the removed worker (first output `ready`, realize
driven from the stored position), and the removal means an immediately
repeated `resume(t)` without an intervening suspend finds nothing. -/
theorem resume_semantics (su : Suite) (s : Slab) (t : Nat)
    (rest : List Frame) :
    (assocGet s.entries t = none →
      stepRequest su s (resumeFrame t :: rest) =
        ⟨[.fail "task not found"], s, rest, true⟩) ∧
    (∀ (w : Worker) (k : Nat), assocGet s.entries t = some (w, k) →
      stepRequest su s (resumeFrame t :: cancelFrame :: rest) =
        ⟨[.ready], { entries := assocErase s.entries t, free := t :: s.free },
         rest, true⟩) ∧
    (assocGet (assocErase s.entries t) t = none) ∧
    (∀ (w : Worker) (k : Nat) (i : JObj), assocGet s.entries t = some (w, k) →
      w.realize k none = .ok (.oneItemAndDone i) →
      stepRequest su s (resumeFrame t :: nextFrame :: rest) =
        ⟨[.ready, .item i, .done],
         { entries := assocErase s.entries t, free := t :: s.free },
         rest, true⟩) := by
  have hrecv : ∀ t' : Nat, recvRequestOrResume (resumeFrame t') =
      .ok (.unusual t') := fun t' => rfl
  have hnext : recvNextOrSuspend nextFrame = .ok (.usual none) := rfl
  have hcancel : recvNextOrSuspend cancelFrame = .error .canceled := rfl
  refine ⟨?_, ?_, assocGet_assocErase_self _ _, ?_⟩
  · intro h
    simp [stepRequest, hrecv, Slab.remove, h, errorAction, Error.display,
      Error.description]
  · intro w k h
    simp [stepRequest, hrecv, Slab.remove, h, streamLoop, hcancel, errorAction]
  · intro w k i h hr
    simp [stepRequest, hrecv, Slab.remove, h, streamLoop, hnext, hr]

/-- A worker that immediately answers one item and done. -/
def onceWorker : Worker :=
  { prepare := fun _ => .ok .tuned,
    realize := fun _ _ => .ok (.oneItemAndDone [("v", .null)]) }

/-- Witness for C6: a parked worker resumes, streams one item, and the
same TaskId cannot be resumed twice. -/
theorem resume_semantics_witness :
    stepRequest []
      { entries := [(0, (onceWorker, 0))], free := [1, 2, 3, 4, 5, 6, 7, 8, 9] }
      [resumeFrame 0, nextFrame] =
      ⟨[.ready, .item [("v", .null)], .done],
       { entries := [], free := [0, 1, 2, 3, 4, 5, 6, 7, 8, 9] }, [], true⟩ ∧
    stepRequest [] Slab.empty10 [resumeFrame 5] =
      ⟨[.fail "task not found"], Slab.empty10, [], true⟩ := by
  constructor
  · exact (resume_semantics [] _ 0 []).2.2.2 onceWorker 0 [("v", .null)] rfl rfl
  · exact (resume_semantics [] Slab.empty10 5 []).1 rfl

/-! Per-request output shape (C1). -/

/-- Every streaming phase emits `ready`, then item blocks interleaved
with further `ready`s, and ends in `done`, `suspended`, `reject`,
`fail`, or nothing. -/
theorem streamLoop_shape (frames : List Frame) :
    ∀ (w : Worker) (k : Nat) (s : Slab),
      ReqShape (streamLoop w k s frames).outs := by
  induction frames with
  | nil =>
    intro w k s
    exact ReqShape.stream [] [] ReqShape.nil
  | cons f rest ih =>
    intro w k s
    cases hr : recvNextOrSuspend f with
    | error e =>
      have hout : (streamLoop w k s (f :: rest)).outs =
          .ready :: (errorAction e).1 := by
        simp [streamLoop, hr]
      rw [hout]
      cases e <;>
        first
          | exact ReqShape.stream [] [] ReqShape.nil
          | exact ReqShape.stream [] [.fail _] (ReqShape.fail _)
    | ok alt =>
      cases alt with
      | usual p =>
        cases hw : w.realize k p with
        | error msg =>
          have hout : (streamLoop w k s (f :: rest)).outs =
              [.ready, .fail msg] := by
            simp [streamLoop, hr, hw, errorAction, Error.display]
          rw [hout]
          exact ReqShape.stream [] [.fail msg] (ReqShape.fail msg)
        | ok r =>
          cases r with
          | oneItem i =>
            have hout : (streamLoop w k s (f :: rest)).outs =
                .ready :: .item i :: (streamLoop w (k + 1) s rest).outs := by
              simp [streamLoop, hr, hw]
            rw [hout]
            exact ReqShape.stream [i] _ (ih w (k + 1) s)
          | oneItemAndDone i =>
            have hout : (streamLoop w k s (f :: rest)).outs =
                [.ready, .item i, .done] := by
              simp [streamLoop, hr, hw]
            rw [hout]
            exact ReqShape.stream [i] [.done] ReqShape.done
          | manyItems items =>
            have hout : (streamLoop w k s (f :: rest)).outs =
                .ready :: (items.map .item ++ (streamLoop w (k + 1) s rest).outs) := by
              simp [streamLoop, hr, hw]
            rw [hout]
            exact ReqShape.stream items _ (ih w (k + 1) s)
          | manyItemsAndDone items =>
            have hout : (streamLoop w k s (f :: rest)).outs =
                .ready :: (items.map .item ++ [.done]) := by
              simp [streamLoop, hr, hw]
            rw [hout]
            exact ReqShape.stream items [.done] ReqShape.done
          | reject m =>
            have hout : (streamLoop w k s (f :: rest)).outs =
                [.ready, .reject m] := by
              simp [streamLoop, hr, hw]
            rw [hout]
            exact ReqShape.stream [] [.reject m] (ReqShape.reject m)
          | done =>
            have hout : (streamLoop w k s (f :: rest)).outs =
                [.ready, .done] := by
              simp [streamLoop, hr, hw]
            rw [hout]
            exact ReqShape.stream [] [.done] ReqShape.done
      | unusual u =>
        cases hi : s.insert (w, k) with
        | ok pr =>
          obtain ⟨tid, s'⟩ := pr
          have hout : (streamLoop w k s (f :: rest)).outs =
              [.ready, .suspended tid] := by
            simp [streamLoop, hr, hi]
          rw [hout]
          exact ReqShape.stream [] [.suspended tid] (ReqShape.suspended tid)
        | error u' =>
          have hout : (streamLoop w k s (f :: rest)).outs =
              [.ready, .fail "cannot suspend worker"] := by
            simp [streamLoop, hr, hi, errorAction, Error.display,
              Error.description]
          rw [hout]
          exact ReqShape.stream [] [.fail _] (ReqShape.fail _)

/-- C1 (amended).  For every request the emitted output sequence lies in
`(ready item*)* t` with terminator `t` among `done`, `suspended(id)`,
`reject(m)`, `fail(m)` or nothing — the dispatcher emits `ready` before
every `next`, streaming may end in `reject` or `fail` after outputs were
already on the wire, and a canceled or disconnected request ends without
a terminator. -/
theorem request_output_shape (su : Suite) (s : Slab) (frames : List Frame) :
    ReqShape (stepRequest su s frames).outs := by
  cases frames with
  | nil => exact ReqShape.nil
  | cons f rest =>
    cases hr : recvRequestOrResume f with
    | error e =>
      have hout : (stepRequest su s (f :: rest)).outs = (errorAction e).1 := by
        simp [stepRequest, hr]
      rw [hout]
      cases e <;>
        first
          | exact ReqShape.nil
          | exact ReqShape.fail _
    | ok alt =>
      cases alt with
      | usual sr =>
        obtain ⟨serviceName, req⟩ := sr
        cases hsv : assocGet su serviceName with
        | none =>
          have hout : (stepRequest su s (f :: rest)).outs =
              [.fail "service not found"] := by
            simp [stepRequest, hr, hsv, errorAction, Error.display,
              Error.description]
          rw [hout]
          exact ReqShape.fail _
        | some svc =>
          cases hp : (svc req).prepare req with
          | error msg =>
            have hout : (stepRequest su s (f :: rest)).outs = [.fail msg] := by
              simp [stepRequest, hr, hsv, hp, errorAction, Error.display]
            rw [hout]
            exact ReqShape.fail msg
          | ok sc =>
            cases sc with
            | tuned =>
              have hout : stepRequest su s (f :: rest) =
                  streamLoop (svc req) 0 s rest := by
                simp [stepRequest, hr, hsv, hp]
              rw [hout]
              exact streamLoop_shape rest (svc req) 0 s
            | reject m =>
              have hout : (stepRequest su s (f :: rest)).outs = [.reject m] := by
                simp [stepRequest, hr, hsv, hp]
              rw [hout]
              exact ReqShape.reject m
            | done =>
              have hout : (stepRequest su s (f :: rest)).outs = [.done] := by
                simp [stepRequest, hr, hsv, hp]
              rw [hout]
              exact ReqShape.done
      | unusual t =>
        cases hrm : s.remove t with
        | mk ow s' =>
        cases how : ow with
        | none =>
          have hout : (stepRequest su s (f :: rest)).outs =
              [.fail "task not found"] := by
            simp [stepRequest, hr, hrm, how, errorAction, Error.display,
              Error.description]
          rw [hout]
          exact ReqShape.fail _
        | some wk =>
          obtain ⟨w, k⟩ := wk
          have hout : stepRequest su s (f :: rest) = streamLoop w k s' rest := by
            simp [stepRequest, hr, hrm, how]
          rw [hout]
          exact streamLoop_shape rest w k s'

/-- The suite with the single service "s" whose worker tunes and then
fails on realize. -/
def boomSuite : Suite := [("s", fun _ => boomWorker)]

/-- C1 counterexample: a realize error produces the wire sequence
`ready fail` for one request — outside all four regular expressions of
the claim (and a `fail` after another output of the same request). -/
theorem spec_shape_cex :
    (stepRequest boomSuite Slab.empty10
      [requestFrame "s" "a" [], nextFrame]).outs = [.ready, .fail "boom"] ∧
    claimedShape [.ready, .fail "boom"] = false :=
  ⟨rfl, rfl⟩

/-! At most one active worker per connection (C2). -/

/-- Dispatcher invariant: no worker is held at the idle point, and never
more than one worker is outside the suspended-workers table. -/
def dInv (c : Conf) : Prop :=
  (c.cp = .awaitReq → c.active = []) ∧ c.active.length ≤ 1

/-- Every dispatcher transition preserves the invariant. -/
theorem dstep_preserves_inv (su : Suite) (c : Conf) (h : dInv c) :
    dInv (dstep su c) := by
  obtain ⟨h1, h2⟩ := h
  rcases c with ⟨cp, active, slab, frames, outs⟩
  cases cp with
  | halted => exact ⟨h1, h2⟩
  | awaitReq =>
    have ha : active = [] := h1 rfl
    subst ha
    cases frames with
    | nil => simp [dstep, dInv]
    | cons f rest =>
      cases hrr : recvRequestOrResume f with
      | error e => simp [dstep, hrr, dInv]
      | ok alt =>
        cases alt with
        | usual sr =>
          obtain ⟨serviceName, req⟩ := sr
          cases hsv : assocGet su serviceName with
          | none => simp [dstep, hrr, hsv, dInv]
          | some svc =>
            cases hp : (svc req).prepare req with
            | error msg => simp [dstep, hrr, hsv, hp, dInv]
            | ok sc => cases sc <;> simp [dstep, hrr, hsv, hp, dInv]
        | unusual t =>
          cases hrm : slab.remove t with
          | mk ow s' =>
            cases ow with
            | none => simp [dstep, hrr, hrm, dInv]
            | some wk => simp [dstep, hrr, hrm, dInv]
  | awaitNext =>
    cases active with
    | nil => simp [dstep, dInv]
    | cons wk arest =>
      obtain ⟨w, k⟩ := wk
      have harest : arest = [] := by
        cases arest with
        | nil => rfl
        | cons x xs => simp [List.length_cons] at h2
      subst harest
      cases frames with
      | nil => simp [dstep, dInv]
      | cons f rest =>
        cases hrn : recvNextOrSuspend f with
        | error e => simp [dstep, hrn, dInv]
        | ok alt =>
          cases alt with
          | usual p =>
            cases hw : w.realize k p with
            | error msg => simp [dstep, hrn, hw, dInv]
            | ok r => cases r <;> simp [dstep, hrn, hw, dInv]
          | unusual u =>
            cases hi : slab.insert (w, k) with
            | ok pr =>
              obtain ⟨tid, s'⟩ := pr
              simp [dstep, hrn, hi, dInv]
            | error u' => simp [dstep, hrn, hi, dInv]

/-- The invariant holds along every run. -/
theorem drun_inv (su : Suite) :
    ∀ (n : Nat) (c : Conf), dInv c → dInv (drun su n c)
  | 0, _, h => h
  | n + 1, c, h => drun_inv su n _ (dstep_preserves_inv su c h)

/-- C2.  At every instant of a connection's dispatcher run the number of
workers held outside the suspended-workers table is at most one, and
every dispatcher transition (request, prepare, realize, suspend, resume,
error) preserves this invariant. -/
theorem at_most_one_active_worker (su : Suite) (frames : List Frame)
    (n : Nat) :
    (drun su n (Conf.start frames)).activeCount ≤ 1 ∧
    (∀ c : Conf, dInv c → dInv (dstep su c) ∧ (dstep su c).activeCount ≤ 1) :=
  ⟨(drun_inv su n (Conf.start frames) ⟨fun _ => rfl, Nat.zero_le 1⟩).2,
   fun c h => ⟨dstep_preserves_inv su c h, (dstep_preserves_inv su c h).2⟩⟩

/-- Witness for C2 at a concrete run. -/
theorem at_most_one_active_worker_witness :
    (drun [] 3 (Conf.start [requestFrame "s" "a" []])).activeCount ≤ 1 ∧
    dInv (dstep [] (Conf.start [])) ∧
    (dstep [] (Conf.start [])).activeCount ≤ 1 := by
  have h := at_most_one_active_worker [] [requestFrame "s" "a" []] 3
  have h2 := h.2 (Conf.start []) ⟨fun _ => rfl, Nat.zero_le 1⟩
  exact ⟨h.1, h2.1, h2.2⟩

/-! Line-delimited I/O transport (C9): IoFlow::pull in the iomould
module of server.rs versus the one in connector.rs. -/

/-- BufRead::read_line on a character stream: everything up to and
including the first LF (or the whole remainder at EOF), plus the rest of
the stream. -/
def readLine : List Char → List Char × List Char
  | [] => ([], [])
  | c :: rest =>
    if c = '\n' then ([c], rest)
    else
      let (l, r) := readLine rest
      (c :: l, r)

/-- server.rs (iomould) `IoFlow::pull`: one line per call, and
`Ok(None)` when `read_line` read zero bytes (EOF). -/
def ioPull : List Char → Option (List Char) × List Char
  | [] => (none, [])
  | c :: rest => (some (readLine (c :: rest)).1, (readLine (c :: rest)).2)

/-- connector.rs `IoFlow::pull`: returns `Ok(Some(buf))` without
checking how many bytes were read. -/
def ioPullConnector (stream : List Char) : Option (List Char) × List Char :=
  (some (readLine stream).1, (readLine stream).2)

theorem readLine_append (pre post : List Char) (h : '\n' ∉ pre) :
    readLine (pre ++ '\n' :: post) = (pre ++ ['\n'], post) := by
  induction pre with
  | nil => simp [readLine]
  | cons c pre ih =>
    rw [List.mem_cons] at h
    push_neg at h
    simp [readLine, Ne.symm h.1, ih h.2]

/-- C9.  On the line-delimited transport of server.rs (iomould): `pull`
returns the first line with its terminating LF and leaves the rest of
the stream; at EOF (zero bytes read) it reports the orderly close
`None`, which `Context::recv` surfaces as `ConnectionClosed`, and the
dispatcher then terminates the session without emitting anything.  The
`IoFlow::pull` of connector.rs, however, returns `Some("")` at EOF and
never reports the close. -/
theorem iomould_eof_closes :
    ioPull [] = (none, []) ∧
    (∀ pre post : List Char, '\n' ∉ pre →
      ioPull (pre ++ '\n' :: post) = (some (pre ++ ['\n']), post)) ∧
    recv .closed = .error .connectionClosed ∧
    errorAction .connectionClosed = ([], false) ∧
    (∀ (su : Suite) (s : Slab) (rest : List Frame),
      stepRequest su s (Frame.closed :: rest) = ⟨[], s, rest, false⟩) ∧
    ioPullConnector [] = (some [], []) := by
  refine ⟨rfl, ?_, rfl, rfl, fun su s rest => rfl, rfl⟩
  intro pre post h
  cases pre with
  | nil => simp [ioPull, readLine]
  | cons c pre' =>
    simp only [List.cons_append, ioPull]
    rw [← List.cons_append]
    rw [readLine_append (c :: pre') post h]
    simp

/-- Witness for C9 at a concrete two-line stream. -/
theorem iomould_eof_closes_witness :
    ioPull ['a', '\n', 'b'] = (some ['a', '\n'], ['b']) ∧
    stepRequest [] Slab.empty10 [Frame.closed, cancelFrame] =
      ⟨[], Slab.empty10, [cancelFrame], false⟩ := by
  constructor
  · have h := iomould_eof_closes.2.1 ['a'] ['b'] (by decide)
    simpa using h
  · exact iomould_eof_closes.2.2.2.2.1 [] Slab.empty10 [cancelFrame]

end Mould
